import Mathlib

/-!
Shallow embedding of the synthtribe2midi codec layer
(`pkg/converter/devices/td3.go`, `pkg/converter/syx.go`).

Machine integers are modelled as `Nat`; Go `uint8` casts appear as `% 256`,
`uint32` masks/shifts as `&&&`/`>>>`/`<<<` on `Nat` (no 32-bit overflow is
reachable in the modelled code paths, noted inline where it matters).
Byte buffers are `List Nat`; indexing a buffer goes through `byteAt`,
which truncates entries to a byte exactly as the Go `[]byte` type does.
Go functions returning `(T, error)` become `Except String T`; a `*Pattern`
argument that may be nil becomes `Option Pattern`.
-/

/-- One step of a pattern (`Step` in `pkg/converter/types.go`).
`note` and `velocity` are Go `uint8` values. -/
structure Step where
  note : Nat
  accent : Bool
  slide : Bool
  gate : Bool
  tie : Bool
  velocity : Nat
  deriving Repr, DecidableEq

/-- A sequence pattern (`Pattern` in `pkg/converter/types.go`).
`tempo` (Go `float64`) is modelled as `Rat`: the program only ever
compares it with 0 and assigns the exact literals 120.0 and
`60000000/microsecondsPerBeat`, all exact in both representations. -/
structure Pattern where
  name : String
  steps : List Step
  length : Nat
  tempo : Rat
  deviceID : Nat
  deriving Repr, DecidableEq

/-- The Go zero value of `Step` (used for `var step converter.Step`). -/
def zeroStep : Step :=
  { note := 0, accent := false, slide := false, gate := false, tie := false, velocity := 0 }

/-- The Go zero value of `Pattern`, used as a dummy for projecting `Except`. -/
def zeroPattern : Pattern :=
  { name := "", steps := [], length := 0, tempo := 0, deviceID := 0 }

/-- `data[i]` on a Go `[]byte`: entries are bytes by type, modelled by
truncating to `% 256` (out-of-range indices never occur on the guarded
paths; `getD .. 0` keeps the function total). -/
def byteAt (data : List Nat) (i : Nat) : Nat :=
  data.getD i 0 % 256

/-- `steps[i]` where the Go code first copies the zero value
(`var step converter.Step; if i < len(pattern.Steps) { step = pattern.Steps[i] }`). -/
def stepAt (steps : List Step) (i : Nat) : Step :=
  steps.getD i zeroStep

/-- Projection of a decode result to its steps (dummy `[]` on error). -/
def okSteps (r : Except String Pattern) : List Step :=
  match r with
  | .ok p => p.steps
  | .error _ => []

/-- Projection of a decode result to the pattern (dummy on error). -/
def okPattern (r : Except String Pattern) : Pattern :=
  match r with
  | .ok p => p
  | .error _ => zeroPattern

/-! ## Binary pattern (.seq) codec — `TD3.ParseSeq` / `TD3.GenerateSeq`
(`pkg/converter/devices/td3.go` lines 67–259).

Offsets (constants at the top of `td3.go`): NotesOffset = 36,
AccentsOffset = 68, SlidesOffset = 100, TripletOffset = 132,
LengthOffset = 134, ReservedOffset = 136, TieOffset = 138,
RestOffset = 142, TD3SeqMinSize = 146. -/

/-- Body of the per-step loop of `TD3.ParseSeq` (td3.go lines 100–143).
`tie`/`rest` are the two 16-bit bitmasks already unpacked.
Note value = `high_byte*16 + low_byte`; the Go cast `uint8(noteVal + 24)`
truncates mod 256 *before* the `> 127` clamp. -/
def parseSeqStep (data : List Nat) (tie rest : Nat) (i : Nat) : Step :=
  let noteVal := byteAt data (36 + i * 2) * 16 + byteAt data (36 + i * 2 + 1)
  let midiNote0 := (noteVal + 24) % 256
  let midiNote := if midiNote0 > 127 then 127 else midiNote0
  let isRest := (rest &&& (1 <<< i)) != 0
  let isTie := (tie &&& (1 <<< i)) == 0
  let hasAccent := byteAt data (68 + i * 2 + 1) &&& 0x01 != 0
  let hasSlide := byteAt data (100 + i * 2 + 1) &&& 0x01 != 0
  { note := midiNote
    gate := !isRest
    accent := hasAccent
    slide := hasSlide
    tie := isTie && decide (i > 0)
    velocity := if hasAccent then 127 else 100 }

/-- The raw sequence-length field read by `TD3.ParseSeq` (td3.go line 80):
`int(data[LengthOffset])*16 + int(data[LengthOffset+1])`. -/
def seqLenField (data : List Nat) : Nat :=
  byteAt data 134 * 16 + byteAt data 135

/-- Effective sequence length in `TD3.ParseSeq` (td3.go lines 80–83):
defaulted to 16 when zero or out of range. -/
def seqLen (data : List Nat) : Nat :=
  if seqLenField data = 0 ∨ seqLenField data > 16 then 16 else seqLenField data

/-- The tie bitmask unpacked by `TD3.ParseSeq` (td3.go lines 86–87):
`uint32(data[139]) + uint32(data[138])<<4 + uint32(data[141])<<8 +
uint32(data[140])<<12`. -/
def seqTieBits (data : List Nat) : Nat :=
  byteAt data 139 + byteAt data 138 <<< 4 +
  byteAt data 141 <<< 8 + byteAt data 140 <<< 12

/-- The rest bitmask unpacked by `TD3.ParseSeq` (td3.go lines 88–89). -/
def seqRestBits (data : List Nat) : Nat :=
  byteAt data 143 + byteAt data 142 <<< 4 +
  byteAt data 145 <<< 8 + byteAt data 144 <<< 12

/-- `TD3.ParseSeq` (td3.go lines 67–146): the `.seq` decoder
(`decodeBinaryPattern` in the spec's vocabulary). -/
def parseSeq (data : List Nat) : Except String Pattern :=
  if data.length < 146 then
    .error "seq data too short"
  else if ¬(byteAt data 0 = 0x23 ∧ byteAt data 1 = 0x98 ∧
            byteAt data 2 = 0x54 ∧ byteAt data 3 = 0x76) then
    .error "invalid TD-3 seq file: wrong magic bytes"
  else
    .ok { name := "TD-3 Pattern"
          deviceID := 0
          steps := (List.range (seqLen data)).map
                     (parseSeqStep data (seqTieBits data) (seqRestBits data))
          length := seqLen data
          tempo := 120 }

/-- The tie bitmask built by `TD3.GenerateSeq` (td3.go lines 231–234):
bit `i` is set (1 = new note) when step `i` is not tied. -/
def tieMask (steps : List Step) : Nat :=
  (List.range 16).foldl (fun m i => if !(stepAt steps i).tie then m ||| (1 <<< i) else m) 0

/-- The rest bitmask built by `TD3.GenerateSeq` (td3.go lines 236–239):
bit `i` is set when step `i` has no gate. -/
def restMask (steps : List Step) : Nat :=
  (List.range 16).foldl (fun m i => if !(stepAt steps i).gate then m ||| (1 <<< i) else m) 0

/-- Encoded note value of a step in `TD3.GenerateSeq` (td3.go lines 211–215):
`noteVal := int(step.Note) - 24; if noteVal < 0 { noteVal = 0 }`. -/
def encNoteVal (s : Step) : Nat :=
  if s.note < 24 then 0 else s.note - 24

/-- Bytes 0–35 of the generated `.seq` buffer: magic, device name "TD-3"
(UTF-16LE), version "1.3.7", and the fill/length field, written literally
at td3.go lines 157–196. -/
def seqHeaderBytes : List Nat :=
  [0x23, 0x98, 0x54, 0x76,
   0x00, 0x00, 0x00, 0x08, 0x00, 0x54, 0x00, 0x44, 0x00, 0x2d, 0x00, 0x33,
   0x00, 0x00, 0x00, 0x0a, 0x00, 0x31, 0x00, 0x2e, 0x00, 0x33, 0x00, 0x2e,
   0x00, 0x37, 0x00, 0x00,
   0x00, 0x70, 0x00, 0x00]

/-- Byte `k` of the 146-byte buffer produced by `TD3.GenerateSeq`
(td3.go lines 149–259), written region by region exactly as the Go code
addresses it: the buffer starts as zeros and the code writes the header
(bytes 0–35), note nibble pairs at 36+2i/37+2i, accent flags at 69+2i,
slide flags at 101+2i, the sequence-length pair at 134/135, and the
nibble-packed tie/rest masks at 138–141/142–145; bytes 132–133 (triplet)
and 136–137 (reserved) are never written and stay 0. -/
def generateSeqByte (p : Pattern) (k : Nat) : Nat :=
  if k < 36 then seqHeaderBytes.getD k 0
  else if k < 68 then
    let i := (k - 36) / 2
    let nv := encNoteVal (stepAt p.steps i)
    if (k - 36) % 2 = 0 then nv / 16 % 256 else nv % 16
  else if k < 100 then
    if (k - 68) % 2 = 0 then 0
    else if (stepAt p.steps ((k - 68) / 2)).accent then 0x01 else 0
  else if k < 132 then
    if (k - 100) % 2 = 0 then 0
    else if (stepAt p.steps ((k - 100) / 2)).slide then 0x01 else 0
  else if k < 134 then 0
  else if k = 134 then min p.steps.length 16 / 16
  else if k = 135 then min p.steps.length 16 % 16
  else if k < 138 then 0
  else if k = 138 then (tieMask p.steps >>> 4) &&& 0x0F
  else if k = 139 then tieMask p.steps &&& 0x0F
  else if k = 140 then (tieMask p.steps >>> 12) &&& 0x0F
  else if k = 141 then (tieMask p.steps >>> 8) &&& 0x0F
  else if k = 142 then (restMask p.steps >>> 4) &&& 0x0F
  else if k = 143 then restMask p.steps &&& 0x0F
  else if k = 144 then (restMask p.steps >>> 12) &&& 0x0F
  else if k = 145 then (restMask p.steps >>> 8) &&& 0x0F
  else 0

/-- The full buffer produced by `TD3.GenerateSeq` on a non-nil pattern. -/
def generateSeqBytes (p : Pattern) : List Nat :=
  (List.range 146).map (generateSeqByte p)

/-- `TD3.GenerateSeq` (td3.go lines 149–259); `nil` pattern becomes `none`. -/
def generateSeq (p : Option Pattern) : Except String (List Nat) :=
  match p with
  | none => .error "nil pattern"
  | some p => .ok (generateSeqBytes p)

/-! ## SysEx (.syx) codec — `TD3.ParseSyx` / `TD3.parseBehringerSyx` /
`TD3.GenerateSyx` (td3.go lines 262–410). -/

/-- One step read by the loop of `TD3.parseBehringerSyx`
(td3.go lines 300–323): a `(noteByte, attrByte)` pair at offsets
`8+2i`/`9+2i`. `(noteData & 0x7F) + 24 ≤ 151` never overflows the uint8. -/
def parseSyxStep (data : List Nat) (i : Nat) : Step :=
  let noteData := byteAt data (8 + i * 2)
  let attrData := byteAt data (8 + i * 2 + 1)
  let accent := attrData &&& 0x02 != 0
  { note := (noteData &&& 0x7F) + 24
    gate := attrData &&& 0x01 != 0
    accent := accent
    slide := attrData &&& 0x04 != 0
    tie := attrData &&& 0x08 != 0
    velocity := if accent then 127 else 100 }

/-- The step loop of `TD3.parseBehringerSyx` with its break condition
(`if offset+1 >= len(data)-1 { break }`); `fuel` counts the remaining
iterations of `for i := 0; i < 16; i++`. -/
def syxStepsFrom (data : List Nat) : Nat → Nat → List Step
  | 0, _ => []
  | fuel + 1, i =>
    if 8 + i * 2 + 1 ≥ data.length - 1 then []
    else parseSyxStep data i :: syxStepsFrom data fuel (i + 1)

/-- `TD3.parseBehringerSyx` (td3.go lines 284–326). -/
def parseBehringerSyx (data : List Nat) : Except String Pattern :=
  if data.length < 8 + 16 * 2 then
    .error "syx data too short"
  else
    .ok { name := "TD-3 SysEx Pattern"
          deviceID := 0
          steps := syxStepsFrom data 16 0
          length := 16
          tempo := 120 }

/-- `TD3.ParseSyx` (td3.go lines 262–281): the `.syx` decoder
(`decodeSysEx` in the spec's vocabulary). -/
def parseSyx (data : List Nat) : Except String Pattern :=
  if data.length < 10 then
    .error "syx data too short"
  else if byteAt data 0 ≠ 0xF0 then
    .error "invalid SysEx: missing start byte"
  else if byteAt data (data.length - 1) ≠ 0xF7 then
    .error "invalid SysEx: missing end byte"
  else if data.length > 4 ∧ byteAt data 1 = 0x00 ∧
          byteAt data 2 = 0x20 ∧ byteAt data 3 = 0x32 then
    parseBehringerSyx data
  else
    .error "unrecognized SysEx format"

/-- Note byte written by `TD3.GenerateSyx` (td3.go lines 373–378):
`if noteVal >= 24 { noteVal -= 24 }; noteByte := noteVal & 0x7F`. -/
def syxNoteByte (s : Step) : Nat :=
  (if s.note ≥ 24 then s.note - 24 else s.note) &&& 0x7F

/-- Attribute byte written by `TD3.GenerateSyx` (td3.go lines 383–396):
bit0 gate, bit1 accent, bit2 slide, bit3 tie. -/
def syxAttrByte (s : Step) : Nat :=
  (if s.gate then 0x01 else 0) ||| (if s.accent then 0x02 else 0) |||
  (if s.slide then 0x04 else 0) ||| (if s.tie then 0x08 else 0)

/-- The 32 payload bytes written by the loop of `TD3.GenerateSyx`
(td3.go lines 366–400): 16 `(noteByte, attrByte)` pairs, starting right
after the 7 header bytes. -/
def syxPayload (steps : List Step) : List Nat :=
  (List.range 16).flatMap fun i =>
    [syxNoteByte (stepAt steps i), syxAttrByte (stepAt steps i)]

/-- The full buffer produced by `TD3.GenerateSyx` on a non-nil pattern
(td3.go lines 329–410): `F0 00 20 32 <deviceId=0> <modelId=1>
<command=0x40>`, 32 payload bytes, XOR checksum masked to 7 bits, `F7`
— 41 bytes in total. -/
def generateSyxBytes (p : Pattern) : List Nat :=
  let payload := syxPayload p.steps
  let checksum := payload.foldl (fun c b => c ^^^ b) 0
  [0xF0, 0x00, 0x20, 0x32, 0x00, 0x01, 0x40] ++ payload ++
    [checksum &&& 0x7F, 0xF7]

/-- `TD3.GenerateSyx` (td3.go lines 329–410); `nil` pattern becomes `none`. -/
def generateSyx (p : Option Pattern) : Except String (List Nat) :=
  match p with
  | none => .error "nil pattern"
  | some p => .ok (generateSyxBytes p)

/-! ## MIDI quantization engine — `MIDIConverter.ParseMIDI` /
`MIDIConverter.GenerateMIDI` (`pkg/converter/syx.go`, second variant,
lines 427–686). The SMF container parsing/serialisation is library code;
the embedded part is the pure event-quantization and note-emission logic
the claims are about. -/

/-- A recorded note event (`noteEvent` in `MIDIConverter.ParseMIDI`,
syx.go lines 451–456). Ticks are sums of unsigned deltas, hence `Nat`. -/
structure NoteEvent where
  tick : Nat
  note : Nat
  velocity : Nat
  isOn : Bool
  deriving Repr, DecidableEq

/-- Step index of an event tick (syx.go lines 520–523):
`stepIndex := int(ev.tick / ticksPerStep); if stepIndex >= 16 { stepIndex %= 16 }`. -/
def stepIndexOf (tps tick : Nat) : Nat :=
  let s := tick / tps
  if s ≥ 16 then s % 16 else s

/-- One iteration of the note-on quantization loop
(syx.go lines 515–529): note-off events are skipped; a note-on overwrites
note/gate/velocity/accent of its quantized step. -/
def applyNoteOn (tps : Nat) (steps : List Step) (e : NoteEvent) : List Step :=
  if e.isOn then
    let k := stepIndexOf tps e.tick
    steps.set k { steps.getD k zeroStep with
                    note := e.note
                    gate := true
                    velocity := e.velocity
                    accent := decide (e.velocity > 100) }
  else steps

/-- The full note-on quantization pass of `MIDIConverter.ParseMIDI`
(syx.go lines 515–529) over the recorded event list. -/
def processNoteOns (tps : Nat) (events : List NoteEvent) (steps : List Step) : List Step :=
  events.foldl (applyNoteOn tps) steps

/-- A note emission of `MIDIConverter.GenerateMIDI`: one note-on at tick
`idx * ticksPerStep` with the given velocity, and its note-off after
`duration` ticks. -/
structure Emission where
  idx : Nat
  note : Nat
  velocity : Nat
  duration : Nat
  deriving Repr, DecidableEq

/-- Length of the run of immediately following `tie && gate` steps
(the `tieCount` loop of `MIDIConverter.GenerateMIDI`, syx.go
lines 641–648), as a function of the step-list suffix. -/
def tieRunLen : List Step → Nat
  | [] => 0
  | s :: rest => if s.tie && s.gate then tieRunLen rest + 1 else 0

/-- Note duration computed for the step at index `i` by
`MIDIConverter.GenerateMIDI` (syx.go lines 592–656): start from the
default length `(tps*3)/4` (replaced by `tps - 1` if that is 0, which for
`tps ≥ 1` equals `(tps*3)/4` anyway), switch to `tps + tps/4` on slide,
then override with `tps * (tieCount+1)` (minus `tps/8` when not sliding)
when a tie run follows. All uint32 arithmetic here is exact in `Nat` for
`1 ≤ tps`. -/
def noteDurationAt (tps : Nat) (steps : List Step) (i : Nat) : Nat :=
  let step := steps.getD i zeroStep
  let base := if tps * 3 / 4 = 0 then tps - 1 else tps * 3 / 4
  let d1 := if step.slide then tps + tps / 4 else base
  let n := tieRunLen (steps.drop (i + 1))
  if n > 0 then tps * (n + 1) - (if step.slide then 0 else tps / 8) else d1

/-- Velocity emitted for a step (syx.go lines 620–626):
`if velocity == 0 { velocity = 100 }; if step.Accent { velocity = 127 }`. -/
def emitVelocity (s : Step) : Nat :=
  if s.accent then 127 else if s.velocity == 0 then 100 else s.velocity

/-- The note emissions of `MIDIConverter.GenerateMIDI`
(syx.go lines 603–662): the loop skips rests (`!step.Gate`) and tied
steps at index > 0 (`step.Tie && i > 0`), and otherwise emits one
note-on/note-off pair with the computed duration. -/
def emissions (tps : Nat) (steps : List Step) : List Emission :=
  (List.range steps.length).filterMap fun i =>
    let s := steps.getD i zeroStep
    if !s.gate then none
    else if s.tie && decide (i > 0) then none
    else some { idx := i, note := s.note, velocity := emitVelocity s,
                duration := noteDurationAt tps steps i }

/-- `MIDIConverter.GenerateMIDI` (syx.go lines 551–686), projected to the
data the claims are about: the emitted note events and the state of the
caller's `*Pattern` after the call. The function mutates the input
pattern at lines 556–558 (`if pattern.Tempo <= 0 { pattern.Tempo = 120.0 }`)
and never writes any other field; the returned pattern is that
post-call state. `tpq` is the converter's `ticksPerQuarter`. -/
def generateMIDI (tpq : Nat) (p : Option Pattern) : Except String (List Emission × Pattern) :=
  match p with
  | none => .error "nil pattern"
  | some p =>
    let p' := if p.tempo ≤ 0 then { p with tempo := 120 } else p
    .ok (emissions (tpq / 4) p'.steps, p')

/-! ## General helper lemmas -/

lemma getD_map_range {α : Type} (f : Nat → α) (d : α) (n k : Nat) :
    ((List.range n).map f).getD k d = if k < n then f k else d := by
  by_cases h : k < n
  · simp [List.getD_eq_getElem?_getD, List.getElem?_range h, h]
  · have hnone : ((List.range n).map f)[k]? = none := by
      apply List.getElem?_eq_none
      simpa using Nat.le_of_not_lt h
    simp [List.getD_eq_getElem?_getD, hnone, h]

lemma byteAt_generateSeqBytes (p : Pattern) (k : Nat) :
    byteAt (generateSeqBytes p) k = if k < 146 then generateSeqByte p k % 256 else 0 := by
  unfold byteAt generateSeqBytes
  rw [getD_map_range]
  split <;> simp

lemma byteAt_set_ne (data : List Nat) (i j v : Nat) (h : i ≠ j) :
    byteAt (data.set i v) j = byteAt data j := by
  simp [byteAt, List.getD_eq_getElem?_getD, List.getElem?_set_ne h]

lemma maskFoldl_testBit (c : Nat → Bool) :
    ∀ (n j m : Nat),
      (((List.range n).foldl (fun m i => if c i then m ||| (1 <<< i) else m) m)).testBit j =
        (m.testBit j || (decide (j < n) && c j)) := by
  intro n
  induction n with
  | zero => simp
  | succ n ih =>
    intro j m
    rw [List.range_succ, List.foldl_append, List.foldl_cons, List.foldl_nil]
    by_cases hc : c n
    · rw [if_pos hc, Nat.testBit_or, ih]
      have h2 : (1 <<< n) = 2 ^ n := by rw [Nat.shiftLeft_eq, one_mul]
      rw [h2, Nat.testBit_two_pow]
      by_cases hj : j = n
      · subst hj; simp [hc]
      · have hlt : (j < n) = (j < n + 1) := by
          apply propext; constructor <;> intro h <;> omega
        simp [Ne.symm hj, hlt]
    · rw [if_neg hc, ih]
      by_cases hj : j = n
      · subst hj; simp [hc]
      · have hlt : (j < n) = (j < n + 1) := by
          apply propext; constructor <;> intro h <;> omega
        simp [hlt]

lemma maskFoldl_lt (c : Nat → Bool) :
    ∀ (n m : Nat), n ≤ 16 → m < 2 ^ 16 →
      ((List.range n).foldl (fun m i => if c i then m ||| (1 <<< i) else m) m) < 2 ^ 16 := by
  intro n
  induction n with
  | zero => intro m _ hm; simpa using hm
  | succ n ih =>
    intro m hn hm
    rw [List.range_succ, List.foldl_append, List.foldl_cons, List.foldl_nil]
    have hacc := ih m (by omega) hm
    by_cases hc : c n
    · rw [if_pos hc]
      apply Nat.or_lt_two_pow hacc
      rw [Nat.shiftLeft_eq, one_mul]
      exact Nat.pow_lt_pow_right (by norm_num) (by omega)
    · rw [if_neg hc]; exact hacc

lemma tieMask_testBit (steps : List Step) (i : Nat) :
    (tieMask steps).testBit i = (decide (i < 16) && !(stepAt steps i).tie) := by
  unfold tieMask
  rw [maskFoldl_testBit]
  simp

lemma restMask_testBit (steps : List Step) (i : Nat) :
    (restMask steps).testBit i = (decide (i < 16) && !(stepAt steps i).gate) := by
  unfold restMask
  rw [maskFoldl_testBit]
  simp

lemma tieMask_lt (steps : List Step) : tieMask steps < 2 ^ 16 :=
  maskFoldl_lt _ 16 0 (by norm_num) (by norm_num)

lemma restMask_lt (steps : List Step) : restMask steps < 2 ^ 16 :=
  maskFoldl_lt _ 16 0 (by norm_num) (by norm_num)

lemma and_fifteen (x : Nat) : x &&& 15 = x % 16 := by
  have h := Nat.and_pow_two_sub_one_eq_mod x 4
  norm_num at h
  exact h

lemma nibbleRepack (m : Nat) (hm : m < 2 ^ 16) :
    (m &&& 15) + ((m >>> 4) &&& 15) <<< 4 +
      ((m >>> 8) &&& 15) <<< 8 + ((m >>> 12) &&& 15) <<< 12 = m := by
  rw [and_fifteen, and_fifteen, and_fifteen, and_fifteen,
      Nat.shiftRight_eq_div_pow, Nat.shiftRight_eq_div_pow, Nat.shiftRight_eq_div_pow,
      Nat.shiftLeft_eq, Nat.shiftLeft_eq, Nat.shiftLeft_eq]
  norm_num
  omega

/-! ## Bytes of the generated .seq buffer at the offsets the decoder reads -/

lemma generateSeqByte_note_hi (p : Pattern) (i : Nat) (h : i < 16) :
    generateSeqByte p (36 + i * 2) = encNoteVal (stepAt p.steps i) / 16 % 256 := by
  simp only [generateSeqByte]
  rw [if_neg (by omega), if_pos (by omega)]
  have h1 : 36 + i * 2 - 36 = i * 2 := by omega
  have h2 : i * 2 / 2 = i := by omega
  rw [h1, if_pos (by omega), h2]

lemma generateSeqByte_note_lo (p : Pattern) (i : Nat) (h : i < 16) :
    generateSeqByte p (36 + i * 2 + 1) = encNoteVal (stepAt p.steps i) % 16 := by
  simp only [generateSeqByte]
  rw [if_neg (by omega), if_pos (by omega)]
  have h1 : 36 + i * 2 + 1 - 36 = i * 2 + 1 := by omega
  have h2 : (i * 2 + 1) / 2 = i := by omega
  rw [h1, if_neg (by omega), h2]

lemma generateSeqByte_accent (p : Pattern) (i : Nat) (h : i < 16) :
    generateSeqByte p (68 + i * 2 + 1) =
      if (stepAt p.steps i).accent then 1 else 0 := by
  simp only [generateSeqByte]
  rw [if_neg (by omega), if_neg (by omega), if_pos (by omega)]
  have h1 : 68 + i * 2 + 1 - 68 = i * 2 + 1 := by omega
  have h2 : (i * 2 + 1) / 2 = i := by omega
  rw [h1, if_neg (by omega), h2]

lemma generateSeqByte_slide (p : Pattern) (i : Nat) (h : i < 16) :
    generateSeqByte p (100 + i * 2 + 1) =
      if (stepAt p.steps i).slide then 1 else 0 := by
  simp only [generateSeqByte]
  rw [if_neg (by omega), if_neg (by omega), if_neg (by omega), if_pos (by omega)]
  have h1 : 100 + i * 2 + 1 - 100 = i * 2 + 1 := by omega
  have h2 : (i * 2 + 1) / 2 = i := by omega
  rw [h1, if_neg (by omega), h2]

lemma generateSeqByte_val_138 (p : Pattern) :
    generateSeqByte p 138 = (tieMask p.steps >>> 4) &&& 15 := by
  simp only [generateSeqByte]
  norm_num

lemma generateSeqByte_val_139 (p : Pattern) :
    generateSeqByte p 139 = tieMask p.steps &&& 15 := by
  simp only [generateSeqByte]
  norm_num

lemma generateSeqByte_val_140 (p : Pattern) :
    generateSeqByte p 140 = (tieMask p.steps >>> 12) &&& 15 := by
  simp only [generateSeqByte]
  norm_num

lemma generateSeqByte_val_141 (p : Pattern) :
    generateSeqByte p 141 = (tieMask p.steps >>> 8) &&& 15 := by
  simp only [generateSeqByte]
  norm_num

lemma generateSeqByte_val_142 (p : Pattern) :
    generateSeqByte p 142 = (restMask p.steps >>> 4) &&& 15 := by
  simp only [generateSeqByte]
  norm_num

lemma generateSeqByte_val_143 (p : Pattern) :
    generateSeqByte p 143 = restMask p.steps &&& 15 := by
  simp only [generateSeqByte]
  norm_num

lemma generateSeqByte_val_144 (p : Pattern) :
    generateSeqByte p 144 = (restMask p.steps >>> 12) &&& 15 := by
  simp only [generateSeqByte]
  norm_num

lemma generateSeqByte_val_145 (p : Pattern) :
    generateSeqByte p 145 = (restMask p.steps >>> 8) &&& 15 := by
  simp only [generateSeqByte]
  norm_num

lemma and_fifteen_mod (x : Nat) : (x &&& 15) % 256 = x &&& 15 :=
  Nat.mod_eq_of_lt (by have := Nat.and_le_right (n := x) (m := 15); omega)

lemma seqTieBits_generateSeqBytes (p : Pattern) :
    seqTieBits (generateSeqBytes p) = tieMask p.steps := by
  unfold seqTieBits
  rw [byteAt_generateSeqBytes, byteAt_generateSeqBytes, byteAt_generateSeqBytes,
      byteAt_generateSeqBytes]
  rw [if_pos (by norm_num), if_pos (by norm_num), if_pos (by norm_num), if_pos (by norm_num)]
  rw [generateSeqByte_val_138, generateSeqByte_val_139, generateSeqByte_val_140,
      generateSeqByte_val_141]
  rw [and_fifteen_mod, and_fifteen_mod, and_fifteen_mod, and_fifteen_mod]
  exact nibbleRepack _ (tieMask_lt p.steps)

lemma seqRestBits_generateSeqBytes (p : Pattern) :
    seqRestBits (generateSeqBytes p) = restMask p.steps := by
  unfold seqRestBits
  rw [byteAt_generateSeqBytes, byteAt_generateSeqBytes, byteAt_generateSeqBytes,
      byteAt_generateSeqBytes]
  rw [if_pos (by norm_num), if_pos (by norm_num), if_pos (by norm_num), if_pos (by norm_num)]
  rw [generateSeqByte_val_142, generateSeqByte_val_143, generateSeqByte_val_144,
      generateSeqByte_val_145]
  rw [and_fifteen_mod, and_fifteen_mod, and_fifteen_mod, and_fifteen_mod]
  exact nibbleRepack _ (restMask_lt p.steps)

lemma seqLenField_generateSeqBytes (p : Pattern) :
    seqLenField (generateSeqBytes p) = min p.steps.length 16 := by
  unfold seqLenField
  rw [byteAt_generateSeqBytes, byteAt_generateSeqBytes]
  rw [if_pos (by norm_num), if_pos (by norm_num)]
  have h134 : generateSeqByte p 134 = min p.steps.length 16 / 16 := by
    simp only [generateSeqByte]; norm_num
  have h135 : generateSeqByte p 135 = min p.steps.length 16 % 16 := by
    simp only [generateSeqByte]; norm_num
  rw [h134, h135]
  have hm : min p.steps.length 16 ≤ 16 := by omega
  omega

lemma and_shift_beq_zero (m i : Nat) : ((m &&& (1 <<< i)) == 0) = !m.testBit i := by
  rw [Nat.shiftLeft_eq, one_mul, Nat.and_two_pow]
  cases h : m.testBit i <;> simp [h]

lemma and_shift_bne_zero (m i : Nat) : ((m &&& (1 <<< i)) != 0) = m.testBit i := by
  rw [bne, and_shift_beq_zero, Bool.not_not]

lemma generateSeqBytes_length (p : Pattern) : (generateSeqBytes p).length = 146 := by
  simp [generateSeqBytes]

lemma seqLen_generateSeqBytes (p : Pattern) :
    seqLen (generateSeqBytes p) =
      if p.steps.length = 0 then 16 else min p.steps.length 16 := by
  unfold seqLen
  rw [seqLenField_generateSeqBytes]
  split_ifs <;> omega

lemma parseSeq_generateSeqBytes (p : Pattern) :
    parseSeq (generateSeqBytes p) = .ok
      { name := "TD-3 Pattern"
        deviceID := 0
        steps := (List.range (seqLen (generateSeqBytes p))).map
                   (parseSeqStep (generateSeqBytes p) (tieMask p.steps) (restMask p.steps))
        length := seqLen (generateSeqBytes p)
        tempo := 120 } := by
  unfold parseSeq
  rw [if_neg (by rw [generateSeqBytes_length]; omega)]
  have hmagic : byteAt (generateSeqBytes p) 0 = 0x23 ∧ byteAt (generateSeqBytes p) 1 = 0x98 ∧
      byteAt (generateSeqBytes p) 2 = 0x54 ∧ byteAt (generateSeqBytes p) 3 = 0x76 := by
    rw [byteAt_generateSeqBytes, byteAt_generateSeqBytes, byteAt_generateSeqBytes,
        byteAt_generateSeqBytes]
    refine ⟨?_, ?_, ?_, ?_⟩ <;> rfl
  rw [if_neg (not_not_intro hmagic)]
  rw [seqTieBits_generateSeqBytes, seqRestBits_generateSeqBytes]

lemma parseSeqStep_generateSeqBytes (p : Pattern) (i : Nat) (h : i < 16)
    (hnote : (stepAt p.steps i).note < 256) :
    parseSeqStep (generateSeqBytes p) (tieMask p.steps) (restMask p.steps) i =
      { note := min 127 (max 24 (stepAt p.steps i).note)
        accent := (stepAt p.steps i).accent
        slide := (stepAt p.steps i).slide
        gate := (stepAt p.steps i).gate
        tie := (stepAt p.steps i).tie && decide (i > 0)
        velocity := if (stepAt p.steps i).accent then 127 else 100 } := by
  have hhi : byteAt (generateSeqBytes p) (36 + i * 2) =
      encNoteVal (stepAt p.steps i) / 16 % 256 := by
    rw [byteAt_generateSeqBytes, if_pos (by omega), generateSeqByte_note_hi p i h]
    omega
  have hlo : byteAt (generateSeqBytes p) (36 + i * 2 + 1) =
      encNoteVal (stepAt p.steps i) % 16 := by
    rw [byteAt_generateSeqBytes, if_pos (by omega), generateSeqByte_note_lo p i h]
    omega
  have hacc : byteAt (generateSeqBytes p) (68 + i * 2 + 1) =
      if (stepAt p.steps i).accent then 1 else 0 := by
    rw [byteAt_generateSeqBytes, if_pos (by omega), generateSeqByte_accent p i h]
    split_ifs <;> rfl
  have hsl : byteAt (generateSeqBytes p) (100 + i * 2 + 1) =
      if (stepAt p.steps i).slide then 1 else 0 := by
    rw [byteAt_generateSeqBytes, if_pos (by omega), generateSeqByte_slide p i h]
    split_ifs <;> rfl
  simp only [parseSeqStep, hhi, hlo, hacc, hsl]
  rw [Step.mk.injEq]
  have henv : encNoteVal (stepAt p.steps i) ≤ 231 := by
    unfold encNoteVal; split_ifs <;> omega
  refine ⟨?_, ?_, ?_, ?_, ?_, ?_⟩
  · -- note
    unfold encNoteVal
    rw [Nat.min_def, Nat.max_def]
    split_ifs <;> omega
  · -- accent
    cases ha : (stepAt p.steps i).accent <;> simp [ha]
  · -- slide
    cases hs : (stepAt p.steps i).slide <;> simp [hs]
  · -- gate
    rw [and_shift_bne_zero, restMask_testBit]
    simp [h]
  · -- tie
    rw [and_shift_beq_zero, tieMask_testBit]
    simp [h]
  · -- velocity
    cases ha : (stepAt p.steps i).accent <;> simp [ha]

/-! ## Claim C1 -/

/-- **C1** (amended). For every Pattern with at most 16 steps (and byte-valued
notes, as the Go `uint8` type guarantees), decoding the buffer produced by
`generateSeq` yields steps that agree with the original on `gate`, `accent`
and `slide` at every index, agree on `tie` at every index > 0, and whose
decoded `note` is `min 127 (max 24 note)` — so `note` itself is preserved
exactly when it lies in [24,127]. (The claim as stated, with `note`
preserved at *every* step, fails for notes below 24: see the
counterexample.) -/
theorem seq_roundtrip_agree (p : Pattern) (h16 : p.steps.length ≤ 16)
    (hb : ∀ s ∈ p.steps, s.note < 256) (i : Nat) (hi : i < p.steps.length) :
    ∃ q, parseSeq (generateSeqBytes p) = Except.ok q ∧
      (stepAt q.steps i).note = min 127 (max 24 (stepAt p.steps i).note) ∧
      (stepAt q.steps i).gate = (stepAt p.steps i).gate ∧
      (stepAt q.steps i).accent = (stepAt p.steps i).accent ∧
      (stepAt q.steps i).slide = (stepAt p.steps i).slide ∧
      (0 < i → (stepAt q.steps i).tie = (stepAt p.steps i).tie) := by
  refine ⟨_, parseSeq_generateSeqBytes p, ?_⟩
  have hlen : seqLen (generateSeqBytes p) = p.steps.length := by
    rw [seqLen_generateSeqBytes, if_neg (by omega)]
    omega
  have hstep : stepAt ((List.range (seqLen (generateSeqBytes p))).map
      (parseSeqStep (generateSeqBytes p) (tieMask p.steps) (restMask p.steps))) i =
      parseSeqStep (generateSeqBytes p) (tieMask p.steps) (restMask p.steps) i := by
    unfold stepAt
    rw [getD_map_range, if_pos (by omega)]
  have hget : stepAt p.steps i = p.steps[i] := by
    unfold stepAt
    rw [List.getD_eq_getElem?_getD, List.getElem?_eq_getElem hi]
    rfl
  have hmem : stepAt p.steps i ∈ p.steps := by
    rw [hget]; exact List.getElem_mem hi
  rw [hstep, parseSeqStep_generateSeqBytes p i (by omega) (hb _ hmem)]
  refine ⟨rfl, rfl, rfl, rfl, fun hi0 => ?_⟩
  simp [hi0]

/-- Single-step pattern with note 0: the round trip decodes its note as 24. -/
def cexC1 : Pattern :=
  { name := "", steps := [{ zeroStep with note := 0, gate := true }],
    length := 1, tempo := 120, deviceID := 0 }

set_option maxRecDepth 100000 in
/-- **C1** counterexample: for the one-step pattern with note 0 (a pattern
with ≤ 16 steps), the decoded step 0 does not agree with the original on
`note` (it decodes as 24, not 0), refuting the claim as stated. -/
theorem seq_roundtrip_note_cex :
    cexC1.steps.length ≤ 16 ∧
    (stepAt (okSteps (parseSeq (generateSeqBytes cexC1))) 0).note ≠
      (stepAt cexC1.steps 0).note := by
  decide

/-- Two-step pattern exercising the amended C1 round trip at index 1. -/
def pWitC1 : Pattern :=
  { name := "w",
    steps := [{ zeroStep with note := 60, gate := true, accent := true },
              { zeroStep with note := 62, gate := true, tie := true }],
    length := 2, tempo := 120, deviceID := 0 }

set_option maxRecDepth 100000 in
/-- **C1** witness: the amended theorem applied to a concrete two-step
pattern at step index 1. -/
theorem seq_roundtrip_agree_witness :
    pWitC1.steps.length ≤ 16 ∧ (∀ s ∈ pWitC1.steps, s.note < 256) ∧
    1 < pWitC1.steps.length ∧
    (∃ q, parseSeq (generateSeqBytes pWitC1) = Except.ok q ∧
      (stepAt q.steps 1).note = min 127 (max 24 (stepAt pWitC1.steps 1).note) ∧
      (stepAt q.steps 1).gate = (stepAt pWitC1.steps 1).gate ∧
      (stepAt q.steps 1).accent = (stepAt pWitC1.steps 1).accent ∧
      (stepAt q.steps 1).slide = (stepAt pWitC1.steps 1).slide ∧
      (0 < 1 → (stepAt q.steps 1).tie = (stepAt pWitC1.steps 1).tie)) :=
  ⟨by decide, by decide, by decide,
   seq_roundtrip_agree pWitC1 (by decide) (by decide) 1 (by decide)⟩

/-! ## Claim C8 -/

/-- **C8** (confirmed). `generateSeq` returns exactly 146 bytes for every
non-nil pattern, and `parseSeq` returns an error for every buffer shorter
than 146 bytes and for every buffer whose first four bytes are not
`23 98 54 76`. -/
theorem seq_size_contract :
    (∀ p : Pattern, ∃ out, generateSeq (some p) = Except.ok out ∧ out.length = 146) ∧
    (∀ data : List Nat, data.length < 146 → (parseSeq data).isOk = false) ∧
    (∀ data : List Nat,
      ¬(byteAt data 0 = 0x23 ∧ byteAt data 1 = 0x98 ∧
        byteAt data 2 = 0x54 ∧ byteAt data 3 = 0x76) →
      (parseSeq data).isOk = false) := by
  refine ⟨fun p => ⟨generateSeqBytes p, rfl, generateSeqBytes_length p⟩, ?_, ?_⟩
  · intro data hshort
    unfold parseSeq
    rw [if_pos hshort]
    rfl
  · intro data hmagic
    unfold parseSeq
    by_cases hshort : data.length < 146
    · rw [if_pos hshort]; rfl
    · rw [if_neg hshort, if_pos hmagic]; rfl

/-- **C8** witness: a 146-byte output for the zero pattern, rejection of the
empty buffer, and rejection of a 146-byte all-zero buffer (wrong magic). -/
theorem seq_size_contract_witness :
    (∃ out, generateSeq (some zeroPattern) = Except.ok out ∧ out.length = 146) ∧
    (parseSeq []).isOk = false ∧
    (parseSeq (List.replicate 146 0)).isOk = false :=
  ⟨seq_size_contract.1 zeroPattern,
   seq_size_contract.2.1 [] (by decide),
   seq_size_contract.2.2 (List.replicate 146 0) (by decide)⟩

/-! ## Claim C6 -/

/-- **C6** (amended). In `parseSeq`, the decoded MIDI note of step `i` is
`(noteVal + 24) mod 256` clamped to at most 127, where
`noteVal = high_byte*16 + low_byte`; in particular the decoded note is
exactly 127 whenever `noteVal + 24` lies in (127, 255], but for
`noteVal + 24 > 255` the uint8 wrap applies *before* the clamp, so the
claim's unconditional "clamp to 127" reading fails (see counterexample). -/
theorem parseSeq_note_formula (data : List Nat) (q : Pattern)
    (hq : parseSeq data = Except.ok q) (i : Nat) (hi : i < q.steps.length) :
    (stepAt q.steps i).note =
      min 127 ((byteAt data (36 + i * 2) * 16 + byteAt data (36 + i * 2 + 1) + 24) % 256) ∧
    (127 < byteAt data (36 + i * 2) * 16 + byteAt data (36 + i * 2 + 1) + 24 →
     byteAt data (36 + i * 2) * 16 + byteAt data (36 + i * 2 + 1) + 24 ≤ 255 →
     (stepAt q.steps i).note = 127) := by
  have hsteps : q.steps = (List.range (seqLen data)).map
      (parseSeqStep data (seqTieBits data) (seqRestBits data)) := by
    unfold parseSeq at hq
    split_ifs at hq
    all_goals cases hq
    all_goals rfl
  have hlen : q.steps.length = seqLen data := by rw [hsteps]; simp
  have hstep : stepAt q.steps i = parseSeqStep data (seqTieBits data) (seqRestBits data) i := by
    rw [hsteps]
    unfold stepAt
    rw [getD_map_range, if_pos (by omega)]
  rw [hstep]
  simp only [parseSeqStep]
  constructor
  · rw [Nat.min_def]
    split_ifs <;> omega
  · intro hgt hle
    rw [if_pos (by omega)]

/-- 146-byte buffer with valid magic whose step-0 note bytes are `0F 00`:
`noteVal = 240`, `noteVal + 24 = 264 > 127`, yet the uint8 wrap gives
`264 mod 256 = 8`, which is below the clamp. -/
def cexC6 : List Nat :=
  (List.range 146).map fun k =>
    if k = 0 then 0x23 else if k = 1 then 0x98 else if k = 2 then 0x54
    else if k = 3 then 0x76 else if k = 36 then 15 else 0

set_option maxRecDepth 100000 in
/-- **C6** counterexample: on `cexC6` the stored note bytes of step 0 give
`noteVal + 24 = 264 > 127`, but the decoded note is 8, not the claimed
clamp value 127. -/
theorem parseSeq_note_wrap_cex :
    127 < byteAt cexC6 36 * 16 + byteAt cexC6 37 + 24 ∧
    (stepAt (okSteps (parseSeq cexC6)) 0).note ≠ 127 := by
  decide

set_option maxRecDepth 100000 in
/-- **C6** witness: the amended formula applied to the concrete buffer
`cexC6` at step 0. -/
theorem parseSeq_note_formula_witness :
    parseSeq cexC6 = Except.ok (okPattern (parseSeq cexC6)) ∧
    0 < (okPattern (parseSeq cexC6)).steps.length ∧
    ((stepAt (okPattern (parseSeq cexC6)).steps 0).note =
      min 127 ((byteAt cexC6 36 * 16 + byteAt cexC6 37 + 24) % 256) ∧
     (127 < byteAt cexC6 36 * 16 + byteAt cexC6 37 + 24 →
      byteAt cexC6 36 * 16 + byteAt cexC6 37 + 24 ≤ 255 →
      (stepAt (okPattern (parseSeq cexC6)).steps 0).note = 127)) := by
  refine ⟨by rfl, by decide, ?_⟩
  have h := parseSeq_note_formula cexC6 (okPattern (parseSeq cexC6)) (by rfl) 0 (by decide)
  simpa using h

/-! ## SysEx decoder characterization -/

lemma syxStepsFrom_eq (data : List Nat) :
    ∀ fuel i, syxStepsFrom data fuel i =
      (List.range (min fuel ((data.length - 9) / 2 - i))).map
        (fun j => parseSyxStep data (i + j)) := by
  intro fuel
  induction fuel with
  | zero => intro i; simp [syxStepsFrom]
  | succ fuel ih =>
    intro i
    unfold syxStepsFrom
    by_cases hbrk : 8 + i * 2 + 1 ≥ data.length - 1
    · rw [if_pos hbrk]
      have hcap : min (fuel + 1) ((data.length - 9) / 2 - i) = 0 := by omega
      rw [hcap]
      simp
    · rw [if_neg hbrk]
      have hcap : min (fuel + 1) ((data.length - 9) / 2 - i) =
          min fuel ((data.length - 9) / 2 - (i + 1)) + 1 := by omega
      rw [hcap, List.range_succ_eq_map, List.map_cons, List.map_map]
      rw [ih (i + 1)]
      have hf : (fun j => parseSyxStep data (i + j)) ∘ Nat.succ =
          fun j => parseSyxStep data (i + 1 + j) := by
        funext j
        simp only [Function.comp]
        congr 1
        omega
      rw [hf]
      congr 1

lemma parseSyx_ok_iff (data : List Nat) :
    (parseSyx data).isOk = true ↔
      (10 ≤ data.length ∧ byteAt data 0 = 0xF0 ∧
       byteAt data (data.length - 1) = 0xF7 ∧
       byteAt data 1 = 0x00 ∧ byteAt data 2 = 0x20 ∧ byteAt data 3 = 0x32 ∧
       40 ≤ data.length) := by
  unfold parseSyx parseBehringerSyx
  split_ifs with h1 h2 h3 h4 h5
  · simp only [Except.isOk, Except.toBool, Bool.false_eq_true, false_iff]
    rintro ⟨h10, -⟩
    omega
  · simp only [Except.isOk, Except.toBool, Bool.false_eq_true, false_iff]
    rintro ⟨-, hF0, -⟩
    exact h2 hF0
  · simp only [Except.isOk, Except.toBool, Bool.false_eq_true, false_iff]
    rintro ⟨-, -, hF7, -⟩
    exact h3 hF7
  · simp only [Except.isOk, Except.toBool, Bool.false_eq_true, false_iff]
    rintro ⟨-, -, -, -, -, -, h40⟩
    omega
  · simp only [not_not] at h2 h3
    simp only [Except.isOk, Except.toBool, eq_self_iff_true, true_iff]
    exact ⟨by omega, h2, h3, h4.2.1, h4.2.2.1, h4.2.2.2, by omega⟩
  · simp only [Except.isOk, Except.toBool, Bool.false_eq_true, false_iff]
    rintro ⟨h10, -, -, hm1, hm2, hm3, -⟩
    exact h4 ⟨by omega, hm1, hm2, hm3⟩

lemma parseSyx_ok_shape (data : List Nat) (q : Pattern)
    (hq : parseSyx data = Except.ok q) : q.steps = syxStepsFrom data 16 0 := by
  unfold parseSyx parseBehringerSyx at hq
  split_ifs at hq
  all_goals cases hq
  all_goals rfl

/-! ## Claim C3 -/

/-- **C3** (amended). `parseSyx` fails iff the buffer is shorter than 10
bytes, starts with a byte other than `F0`, ends with a byte other than
`F7`, has manufacturer bytes other than `00 20 32` at offsets 1–3, or is
shorter than 40 bytes (too short for 16 pairs from offset 8). Every
accepted buffer decodes to steps read pairwise from offset 8 onward —
16 of them, *except* that an accepted buffer of length exactly 40 yields
only 15 steps (the loop's break guard `offset+1 >= len(data)-1` fires one
pair early); see the counterexample. -/
theorem parseSyx_contract (data : List Nat) :
    ((parseSyx data).isOk = false ↔
      (data.length < 10 ∨ byteAt data 0 ≠ 0xF0 ∨
       byteAt data (data.length - 1) ≠ 0xF7 ∨
       ¬(byteAt data 1 = 0x00 ∧ byteAt data 2 = 0x20 ∧ byteAt data 3 = 0x32) ∨
       data.length < 40)) ∧
    (∀ q, parseSyx data = Except.ok q →
      q.steps.length = (if data.length = 40 then 15 else 16) ∧
      ∀ i, i < q.steps.length → stepAt q.steps i = parseSyxStep data i) := by
  constructor
  · rw [← Bool.not_eq_true, parseSyx_ok_iff]
    constructor
    · intro h
      by_contra hno
      push_neg at hno
      obtain ⟨ha, hb, hc, hd, he⟩ := hno
      exact h ⟨by omega, hb, hc, hd.1, hd.2.1, hd.2.2, by omega⟩
    · intro h hok
      obtain ⟨h10, hF0, hF7, hm1, hm2, hm3, h40⟩ := hok
      rcases h with h | h | h | h | h
      · omega
      · exact h hF0
      · exact h hF7
      · exact h ⟨hm1, hm2, hm3⟩
      · omega
  · intro q hq
    have hok : (parseSyx data).isOk = true := by rw [hq]; rfl
    obtain ⟨h10, -, -, -, -, -, h40⟩ := (parseSyx_ok_iff data).mp hok
    have hsteps : q.steps = syxStepsFrom data 16 0 := parseSyx_ok_shape data q hq
    rw [hsteps, syxStepsFrom_eq]
    constructor
    · simp only [List.length_map, List.length_range]
      split_ifs with h40eq <;> omega
    · intro i hi
      simp only [List.length_map, List.length_range] at hi
      unfold stepAt
      rw [getD_map_range, if_pos hi]
      simp

/-- A 40-byte buffer accepted by `parseSyx`: correct framing and
manufacturer bytes, all-zero payload. -/
def cexC3 : List Nat := [0xF0, 0x00, 0x20, 0x32] ++ List.replicate 35 0 ++ [0xF7]

/-- **C3** counterexample: `cexC3` is accepted by `parseSyx` but decodes to
15 steps, not the claimed 16. -/
theorem parseSyx_forty_cex :
    (parseSyx cexC3).isOk = true ∧ (okSteps (parseSyx cexC3)).length ≠ 16 := by
  decide

/-- A 41-byte buffer accepted by `parseSyx` (decodes to 16 steps). -/
def witC3 : List Nat := [0xF0, 0x00, 0x20, 0x32] ++ List.replicate 36 0 ++ [0xF7]

/-- **C3** witness: the amended contract applied to the concrete accepted
41-byte buffer `witC3`. -/
theorem parseSyx_contract_witness :
    (okPattern (parseSyx witC3)).steps.length = (if witC3.length = 40 then 15 else 16) ∧
    stepAt (okPattern (parseSyx witC3)).steps 0 = parseSyxStep witC3 0 := by
  have h := (parseSyx_contract witC3).2 (okPattern (parseSyx witC3)) (by rfl)
  exact ⟨h.1, h.2 0 (by rw [h.1]; decide)⟩

/-! ## Claim C10 -/

/-- **C10** (confirmed). `parseSyx` never verifies the checksum: if a buffer
is accepted, then the buffer with its second-to-last byte replaced by any
7-bit value is still accepted — there is no checksum-mismatch error. -/
theorem parseSyx_checksum_ignored (data : List Nat) (v : Nat)
    (hok : (parseSyx data).isOk = true) (hv : v ≤ 127) :
    (parseSyx (data.set (data.length - 2) v)).isOk = true := by
  obtain ⟨h10, hF0, hF7, hm1, hm2, hm3, h40⟩ := (parseSyx_ok_iff data).mp hok
  apply (parseSyx_ok_iff _).mpr
  have hlen : (data.set (data.length - 2) v).length = data.length := by simp
  rw [hlen]
  refine ⟨h10, ?_, ?_, ?_, ?_, ?_, h40⟩ <;>
    rw [byteAt_set_ne data _ _ v (by omega)] <;> assumption

/-- A 42-byte buffer accepted by `parseSyx`, for the checksum witness. -/
def witC10 : List Nat := [0xF0, 0x00, 0x20, 0x32] ++ List.replicate 37 0 ++ [0xF7]

/-- **C10** witness: the theorem applied to `witC10` with replacement
value 5. -/
theorem parseSyx_checksum_ignored_witness :
    (parseSyx witC10).isOk = true ∧ (5 : Nat) ≤ 127 ∧
    (parseSyx (witC10.set (witC10.length - 2) 5)).isOk = true :=
  ⟨by decide, by decide, parseSyx_checksum_ignored witC10 5 (by decide) (by decide)⟩

/-! ## Claim C2 -/

/-- A 42-byte buffer accepted by `parseSyx` whose byte at offset 9 is 1, so
the decoded step 0 has `gate = true` (the decoder reads pairs from
offset 8). -/
def cexC2 : List Nat :=
  [0xF0, 0x00, 0x20, 0x32, 0x00, 0x00, 0x00, 0x00, 0x00, 0x01] ++
    List.replicate 31 0 ++ [0xF7]

set_option maxRecDepth 100000 in
/-- **C2** (code bug). The decoder `parseBehringerSyx` skips `headerLen = 8`
bytes although its own comment lists a 7-byte header (`F0`, 3-byte
manufacturer ID, device ID, model ID, command) and the encoder
`GenerateSyx` writes exactly those 7 bytes before the payload. Hence
re-decoding an encoded pattern reads every step pair shifted by one byte:
for the accepted buffer `cexC2`, the round trip
`parseSyx (generateSyx (parseSyx cexC2))` succeeds but returns a different
step 0 (its gate flag is lost and its note shifts), refuting round-trip
idempotence. -/
theorem syx_roundtrip_misaligned :
    (parseSyx cexC2).isOk = true ∧
    (parseSyx (generateSyxBytes (okPattern (parseSyx cexC2)))).isOk = true ∧
    stepAt (okSteps (parseSyx (generateSyxBytes (okPattern (parseSyx cexC2))))) 0 ≠
      stepAt (okSteps (parseSyx cexC2)) 0 := by
  decide

/-! ## Claim C4 -/

/-- A 42-byte buffer accepted by `parseSyx` whose step-0 attribute byte
(offset 9, as the decoder reads it) has bit 3 (`0x08`, tie) set. -/
def cexC4 : List Nat :=
  [0xF0, 0x00, 0x20, 0x32, 0x00, 0x00, 0x00, 0x00, 0x00, 0x09] ++
    List.replicate 31 0 ++ [0xF7]

set_option maxRecDepth 100000 in
/-- **C4** (code bug). The data-model invariant — `tie` must never be true
for the first step — is enforced by `ParseSeq` (`Tie: isTie && i > 0`,
"Can't tie first note") but not by `parseBehringerSyx`, which copies
attribute bit 3 into `Tie` unconditionally: decoding `cexC4` yields a
pattern whose step 0 has `tie = true`. -/
theorem parseSyx_tie_step0 :
    (parseSyx cexC4).isOk = true ∧
    (stepAt (okSteps (parseSyx cexC4)) 0).tie = true := by
  decide

/-! ## Claim C9 -/

/-- The state of the caller's `*Pattern` after `GenerateMIDI` returns
(dummy on error). -/
def midiOutPattern (r : Except String (List Emission × Pattern)) : Pattern :=
  match r with
  | .ok x => x.2
  | .error _ => zeroPattern

/-- **C9** (amended). `GenerateMIDI` leaves the input pattern unchanged
whenever its tempo is positive; but for a pattern with tempo ≤ 0 it
mutates the caller's pattern, setting its tempo field to 120 before
encoding (so the operation is not pure on that input class — see the
counterexample). -/
theorem generateMIDI_pattern_effect (tpq : Nat) (p : Pattern) :
    (0 < p.tempo →
      generateMIDI tpq (some p) = Except.ok (emissions (tpq / 4) p.steps, p)) ∧
    (p.tempo ≤ 0 →
      generateMIDI tpq (some p) =
        Except.ok (emissions (tpq / 4) p.steps, { p with tempo := 120 })) := by
  have hred : generateMIDI tpq (some p) =
      (let p' := if p.tempo ≤ 0 then { p with tempo := 120 } else p
       Except.ok (emissions (tpq / 4) p'.steps, p')) := rfl
  constructor
  · intro h
    rw [hred, if_neg (not_le.mpr h)]
  · intro h
    rw [hred, if_pos h]

/-- Pattern with tempo 0, exercising the mutation branch. -/
def cexC9 : Pattern :=
  { name := "t", steps := [], length := 0, tempo := 0, deviceID := 0 }

/-- **C9** counterexample: calling `generateMIDI` on the tempo-0 pattern
leaves the caller's pattern with tempo 120 ≠ 0 — the input pattern is
mutated, refuting the purity claim. -/
theorem generateMIDI_mutates_tempo_cex :
    (midiOutPattern (generateMIDI 480 (some cexC9))).tempo ≠ cexC9.tempo := by
  decide

/-- One-step pattern with positive tempo. -/
def witC9 : Pattern :=
  { name := "w", steps := [{ zeroStep with note := 60, gate := true }],
    length := 1, tempo := 120, deviceID := 0 }

/-- **C9** witness: the amended theorem applied to the concrete pattern
`witC9` with tempo 120. -/
theorem generateMIDI_pattern_effect_witness :
    0 < witC9.tempo ∧
    generateMIDI 480 (some witC9) =
      Except.ok (emissions (480 / 4) witC9.steps, witC9) :=
  ⟨by norm_num [witC9], (generateMIDI_pattern_effect 480 witC9).1 (by norm_num [witC9])⟩

/-! ## Claim C5 -/

/-- Inversion of membership in `emissions`: an emitted note comes from a
gated step that is not a tied step at index > 0, and carries that step's
note, velocity and computed duration. -/
lemma mem_emissions (tps : Nat) (steps : List Step) (e : Emission)
    (he : e ∈ emissions tps steps) :
    e.idx < steps.length ∧ (stepAt steps e.idx).gate = true ∧
    ¬((stepAt steps e.idx).tie = true ∧ 0 < e.idx) ∧
    e.note = (stepAt steps e.idx).note ∧
    e.velocity = emitVelocity (stepAt steps e.idx) ∧
    e.duration = noteDurationAt tps steps e.idx := by
  unfold emissions at he
  obtain ⟨i, hmem, hf⟩ := List.mem_filterMap.mp he
  rw [List.mem_range] at hmem
  simp only at hf
  cases hgate : (steps.getD i zeroStep).gate with
  | false => rw [hgate] at hf; simp at hf
  | true =>
    rw [hgate] at hf
    simp only [Bool.not_true, if_neg (by simp : ¬false = true)] at hf
    cases htie : (steps.getD i zeroStep).tie with
    | true =>
      rw [htie] at hf
      by_cases hi0 : 0 < i
      · rw [if_pos (by simp [hi0])] at hf
        cases hf
      · have : i = 0 := by omega
        subst this
        rw [if_neg (by simp)] at hf
        cases hf
        exact ⟨hmem, by unfold stepAt; rw [hgate],
               by unfold stepAt; simp, rfl, rfl, rfl⟩
    | false =>
      rw [htie] at hf
      rw [if_neg (by simp)] at hf
      cases hf
      exact ⟨hmem, by unfold stepAt; rw [hgate],
             by unfold stepAt; rw [htie]; simp, rfl, rfl, rfl⟩

/-- **C5** (amended). For patterns satisfying the data-model invariant that
the first step is not tied: a step whose tie flag is set is never emitted
as its own note-on; and each emitted step's duration is
`tps * (1 + tieRunLength) - (tps/8 if not sliding)` when a nonempty run of
`tie && gate` steps follows, else `tps + tps/4` (= 1.25·tps) when the step
slides, else `3·tps/4`. (The claim's unconditional "slide ⇒ duration =
1.25·tps" fails when a tie run follows a sliding step: the tie extension
overrides it — see the counterexample.) -/
theorem emissions_tie_duration (tps : Nat) (steps : List Step)
    (htps : 0 < tps) (h16 : steps.length ≤ 16)
    (h0 : (stepAt steps 0).tie = false) :
    (∀ i, i < steps.length → (stepAt steps i).tie = true →
       ∀ e ∈ emissions tps steps, e.idx ≠ i) ∧
    (∀ e ∈ emissions tps steps,
       e.duration =
         if 0 < tieRunLen (steps.drop (e.idx + 1)) then
           tps * (tieRunLen (steps.drop (e.idx + 1)) + 1) -
             (if (stepAt steps e.idx).slide then 0 else tps / 8)
         else if (stepAt steps e.idx).slide then tps + tps / 4
         else tps * 3 / 4) := by
  constructor
  · intro i hi htie e he heq
    obtain ⟨-, -, hnt, -, -, -⟩ := mem_emissions tps steps e he
    rw [heq] at hnt
    have hi0 : i = 0 := by
      by_contra hne
      exact hnt ⟨htie, by omega⟩
    rw [hi0, h0] at htie
    cases htie
  · intro e he
    obtain ⟨hlt, -, -, -, -, hdur⟩ := mem_emissions tps steps e he
    rw [hdur]
    unfold noteDurationAt stepAt
    simp only
    have hbase : (if tps * 3 / 4 = 0 then tps - 1 else tps * 3 / 4) = tps * 3 / 4 := by
      split_ifs with h <;> omega
    rw [hbase]

/-- Two steps: a gated sliding step followed by a gated tied step.
The tie-run extension overrides the slide duration. -/
def cexC5 : List Step :=
  [{ zeroStep with gate := true, slide := true, note := 60, velocity := 100 },
   { zeroStep with gate := true, tie := true, note := 60, velocity := 100 }]

/-- The Go zero value of the emission record (projection dummy). -/
def zeroEmission : Emission := { idx := 0, note := 0, velocity := 0, duration := 0 }

/-- **C5** counterexample: step 0 of `cexC5` has its slide flag set, yet its
emitted duration at `tps = 120` is 240 = 2·tps (tie-run extension), not the
claimed `1.25 × tps = 150`. -/
theorem slide_duration_cex :
    (stepAt cexC5 0).slide = true ∧
    ((emissions 120 cexC5).getD 0 zeroEmission).idx = 0 ∧
    ((emissions 120 cexC5).getD 0 zeroEmission).duration ≠ 120 + 120 / 4 := by
  decide

/-- The first emission of `cexC5` at `tps = 120`. -/
def witEmC5 : Emission := (emissions 120 cexC5).getD 0 zeroEmission

/-- **C5** witness: the amended theorem applied to `cexC5` at `tps = 120`,
instantiated at its concrete first emission. -/
theorem emissions_tie_duration_witness :
    (0 : Nat) < 120 ∧ cexC5.length ≤ 16 ∧ (stepAt cexC5 0).tie = false ∧
    witEmC5.duration =
      (if 0 < tieRunLen (cexC5.drop (witEmC5.idx + 1)) then
         120 * (tieRunLen (cexC5.drop (witEmC5.idx + 1)) + 1) -
           (if (stepAt cexC5 witEmC5.idx).slide then 0 else 120 / 8)
       else if (stepAt cexC5 witEmC5.idx).slide then 120 + 120 / 4
       else 120 * 3 / 4) :=
  ⟨by decide, by decide, by decide,
   (emissions_tie_duration 120 cexC5 (by decide) (by decide) (by decide)).2
     witEmC5 (by decide)⟩

/-! ## Claim C7 -/

/-- The last note-on event in scan order whose tick quantizes to step `k`
(the event that "wins" the overwrite). -/
def lastNoteOnAt (tps k : Nat) (events : List NoteEvent) : Option NoteEvent :=
  (events.filter fun e => e.isOn && (e.tick / tps % 16 == k)).getLast?

lemma processNoteOns_length (tps : Nat) (events : List NoteEvent) :
    ∀ steps, (processNoteOns tps events steps).length = steps.length := by
  induction events with
  | nil => intro steps; rfl
  | cons e es ih =>
    intro steps
    unfold processNoteOns at *
    rw [List.foldl_cons, ih]
    unfold applyNoteOn
    split_ifs <;> simp

lemma stepIndexOf_eq (tps tick : Nat) : stepIndexOf tps tick = tick / tps % 16 := by
  unfold stepIndexOf
  simp only
  split_ifs with h
  · rfl
  · exact (Nat.mod_eq_of_lt (Nat.lt_of_not_le h)).symm

/-- **C7** (confirmed). In the quantization pass of `ParseMIDI`, only
note-on events modify the 16-step buffer; each lands at step
`(tick / ticksPerStep) mod 16`; later events overwrite earlier ones on the
same step; and the final value of step `k` is the initial step with
`gate = true` and the last matching event's note, velocity and
`accent = velocity > 100` — or the untouched initial step if no note-on
maps to `k`. -/
theorem midi_noteOn_quantization (tps : Nat) (events : List NoteEvent)
    (steps : List Step) (htps : 0 < tps) (hlen : steps.length = 16)
    (k : Nat) (hk : k < 16) :
    stepAt (processNoteOns tps events steps) k =
      match lastNoteOnAt tps k events with
      | none => stepAt steps k
      | some e => { stepAt steps k with note := e.note, gate := true,
                                        velocity := e.velocity,
                                        accent := decide (e.velocity > 100) } := by
  induction events using List.reverseRecOn with
  | nil => simp [processNoteOns, lastNoteOnAt]
  | append_singleton es e ih =>
    have hplen : (processNoteOns tps es steps).length = 16 := by
      rw [processNoteOns_length]; exact hlen
    have hstep : processNoteOns tps (es ++ [e]) steps =
        applyNoteOn tps (processNoteOns tps es steps) e := by
      unfold processNoteOns
      rw [List.foldl_append, List.foldl_cons, List.foldl_nil]
    rw [hstep]
    unfold lastNoteOnAt at *
    rw [List.filter_append]
    cases hOn : e.isOn with
    | false =>
      have happ : applyNoteOn tps (processNoteOns tps es steps) e =
          processNoteOns tps es steps := by
        unfold applyNoteOn
        rw [hOn]
        rfl
      have hfil : List.filter (fun e => e.isOn && (e.tick / tps % 16 == k)) [e] = [] := by
        simp [List.filter, hOn]
      rw [happ, hfil, List.append_nil]
      exact ih
    | true =>
      by_cases hhit : e.tick / tps % 16 = k
      · have hfil : List.filter (fun e => e.isOn && (e.tick / tps % 16 == k)) [e] = [e] := by
          simp [List.filter, hOn, hhit]
        rw [hfil, List.getLast?_concat]
        have happ : applyNoteOn tps (processNoteOns tps es steps) e =
            (processNoteOns tps es steps).set k
              { (processNoteOns tps es steps).getD k zeroStep with
                note := e.note, gate := true, velocity := e.velocity,
                accent := decide (e.velocity > 100) } := by
          unfold applyNoteOn
          rw [hOn, if_pos rfl, stepIndexOf_eq, hhit]
        rw [happ]
        unfold stepAt
        rw [List.getD_eq_getElem?_getD, List.getElem?_set_self (by omega)]
        simp only [Option.getD_some]
        unfold stepAt at ih
        rw [ih]
        cases hlast : (List.filter (fun e => e.isOn && (e.tick / tps % 16 == k)) es).getLast? with
        | none => rfl
        | some e' => rfl
      · have hbeq : (e.tick / tps % 16 == k) = false := beq_eq_false_iff_ne.mpr hhit
        have hfil : List.filter (fun e => e.isOn && (e.tick / tps % 16 == k)) [e] = [] := by
          simp [List.filter, hOn, hbeq]
        rw [hfil, List.append_nil]
        have happ : applyNoteOn tps (processNoteOns tps es steps) e =
            (processNoteOns tps es steps).set (e.tick / tps % 16)
              { (processNoteOns tps es steps).getD (e.tick / tps % 16) zeroStep with
                note := e.note, gate := true, velocity := e.velocity,
                accent := decide (e.velocity > 100) } := by
          unfold applyNoteOn
          rw [hOn, if_pos rfl, stepIndexOf_eq]
        rw [happ]
        unfold stepAt
        rw [List.getD_eq_getElem?_getD, List.getElem?_set_ne hhit]
        rw [← List.getD_eq_getElem?_getD]
        exact ih

/-- A concrete note-on event at tick 0 with velocity 110. -/
def witEvC7 : NoteEvent := { tick := 0, note := 60, velocity := 110, isOn := true }

/-- **C7** witness: the quantization theorem applied to one concrete
note-on over an all-rest 16-step buffer at step 0. -/
theorem midi_noteOn_quantization_witness :
    (0 : Nat) < 120 ∧ (List.replicate 16 zeroStep : List Step).length = 16 ∧
    (0 : Nat) < 16 ∧
    stepAt (processNoteOns 120 [witEvC7] (List.replicate 16 zeroStep)) 0 =
      (match lastNoteOnAt 120 0 [witEvC7] with
       | none => stepAt (List.replicate 16 zeroStep) 0
       | some e => { stepAt (List.replicate 16 zeroStep) 0 with
                     note := e.note, gate := true, velocity := e.velocity,
                     accent := decide (e.velocity > 100) }) :=
  ⟨by decide, by decide, by decide,
   midi_noteOn_quantization 120 [witEvC7] (List.replicate 16 zeroStep)
     (by decide) (by decide) 0 (by decide)⟩
